import Mathlib

/-!
Verification of the bytewax-azure-ai-search connector.

This file gives a shallow embedding of the connector's core logic and proves
the specification's claims about it.  Three source units are modelled:

* `AzureAISearch` embeds `src/bytewax/azure_ai_search/__init__.py`:
  the schema-validating sink variant (`_AzureSearchPartition.write_batch`
  and `validate_document`).
* `SimpleSink` embeds `src/bytewax/bytewax_azure_ai_search/__init__.py`:
  the earlier single-document sink variant whose `write_batch` classifies
  the HTTP response by `status_code == 200`.
* `Operators` embeds `src/bytewax/bytewax_azure_ai_search/operators.py`:
  the `validate_and_prepare` function that fills schema defaults into the
  batched documents (in place, by dictionary assignment).

Python values appearing in documents are modelled by the inductive `Value`;
Python dicts (which preserve insertion order and have unique keys) are
modelled as ordered association lists together with an `insertDict`
operation that mirrors dict item assignment: an existing key is overwritten
in place, a new key is appended at the end.
-/

set_option autoImplicit false

namespace AzureSink

/-- A JSON-serialisable Python value as used by the connector: strings,
numbers, lists, `None`, and booleans.  `isStr` and `isList` mirror
`isinstance(value, str)` and `isinstance(value, list)`. -/
inductive Value where
  | str : String → Value
  | num : Int → Value
  | list : List Value → Value
  | null : Value
  | bool : Bool → Value
  deriving Repr

/-- Mirrors Python `isinstance(value, str)`. -/
def Value.isStr : Value → Bool
  | .str _ => true
  | _ => false

/-- Mirrors Python `isinstance(value, list)`. -/
def Value.isList : Value → Bool
  | .list _ => true
  | _ => false

/-- A Python-dict-style ordered association list with values in `α`. -/
abbrev Dict (α : Type) : Type := List (String × α)

/-- First-match lookup, as Python `d[k]` / `k in d` / `d.get(k)` observe. -/
def lookupKey {α : Type} : Dict α → String → Option α
  | [], _ => none
  | (k', v) :: rest, k => if k' = k then some v else lookupKey rest k

/-- Python dict item assignment `d[k] = v`: overwrite in place when the key
exists, append otherwise. -/
def insertDict {α : Type} : Dict α → String → α → Dict α
  | [], k, v => [(k, v)]
  | (k', v') :: rest, k, v =>
      if k' = k then (k, v) :: rest else (k', v') :: insertDict rest k v

/-- A record/document: a Python dict from field name to value. -/
abbrev Document : Type := Dict Value

/-- A field descriptor from the schema dict: the `"type"` entry and the
optional `"default"` entry (`field_details.get("default")` yields Python
`None` when the key is absent, which `defaultValue` reproduces). -/
structure FieldDetails where
  type : String
  default : Option Value
  deriving Repr

/-- Python `field_details.get("default")`: the declared default, or `None`. -/
def FieldDetails.defaultValue (d : FieldDetails) : Value :=
  d.default.getD Value.null

/-- A schema: an ordered mapping from field name to its descriptor. -/
abbrev Schema : Type := Dict FieldDetails

/-- The schema dict has pairwise-distinct field names (automatic for a
Python dict, stated explicitly for the association-list model). -/
abbrev keysNodup {α : Type} (d : Dict α) : Prop :=
  (List.map Prod.fst d).Nodup

namespace AzureAISearch

/-- The per-field body of `validate_document`'s loop, for one declared field
that is present in the document: a `"collection"` field must hold a list and
a `"string"` field must hold a string; any other declared `type` imposes no
check. -/
def checkField (details : FieldDetails) (value : Value) : Bool :=
  if details.type = "collection" && !value.isList then false
  else if details.type = "string" && !value.isStr then false
  else true

/-- Embeds `_AzureSearchPartition.validate_document`: iterate over the
schema's fields; a declared field absent from the document is skipped; the
first present field failing its `checkField` makes the whole document
invalid. -/
def validate_document (document : Document) (schema : Schema) : Bool :=
  schema.all fun p =>
    match lookupKey document p.1 with
    | some value => checkField p.2 value
    | none => true

/-- The value stored for declared field `fn` when building `doc_body` in
`write_batch`: the field named `"vector"` uses `document.get(field_name, "")`
(hard-coded empty-string fallback), every other field uses
`document.get(field_name, field_details.get("default"))`. -/
def fieldEmission (document : Document) (fn : String) (details : FieldDetails) : Value :=
  if fn = "vector" then (lookupKey document fn).getD (Value.str "")
  else (lookupKey document fn).getD details.defaultValue

/-- Embeds the `doc_body` construction in `write_batch`: start from
`{"@search.action": "upload"}` and assign each schema field in declaration
order. -/
def buildDocBody (schema : Schema) (document : Document) : Document :=
  schema.foldl (fun acc p => insertDict acc p.1 (fieldEmission document p.1 p.2))
    [("@search.action", Value.str "upload")]

/-- Embeds the batch loop of `write_batch`: documents failing
`validate_document` are logged and skipped (`continue`); each valid
document's `doc_body` is appended to `body["value"]`. -/
def write_batch_value (schema : Schema) (batch : List Document) : List Document :=
  batch.foldl
    (fun acc document =>
      if validate_document document schema then acc ++ [buildDocBody schema document]
      else acc)
    []

/-- Embeds the full request body of `write_batch`: a dict with the single
key `"value"` holding the list of document bodies. -/
def write_batch_body (schema : Schema) (batch : List Document) : Dict (List Document) :=
  [("value", write_batch_value schema batch)]

end AzureAISearch

/-- An HTTP response as `requests` exposes it: the status code and the body
text (`response.status_code`, `response.text`). -/
structure Response where
  status : Nat
  body : String
  deriving Repr, DecidableEq

/-- The outcome of one `requests.post` call: either a response arrived, or
the call raised a transport-level `RequestException` (connection error,
timeout, ...) before any response object existed. -/
def PostOutcome : Type := Except String Response

/-- What an observer sees of one `write_batch` call after the HTTP phase. -/
inductive WriteOutcome where
  /-- The success branch ran: "Document uploaded successfully" was logged. -/
  | logged_success : WriteOutcome
  /-- The `except RequestException` handler ran to completion, logging the
  request error and the response body text it carries. -/
  | logged_error : String → WriteOutcome
  /-- An exception of the given class escaped `write_batch` unhandled. -/
  | unhandled : String → WriteOutcome
  deriving Repr, DecidableEq

/-- Mirrors `requests.Response.raise_for_status`: raises `HTTPError` (a
subclass of `RequestException`) exactly for status codes 400–599. -/
def raise_for_status (r : Response) : Bool :=
  decide (400 ≤ r.status) && decide (r.status < 600)

namespace AzureAISearch

/-- Embeds the HTTP phase of `write_batch` (the `try`/`except` block).

The code is

  try:
      response = requests.post(search_endpoint, headers=headers, data=body_json)
      response.raise_for_status()
      logger.info(...)
  except requests.exceptions.RequestException as req_err:
      logger.error("Request error occurred: " + req_err)
      logger.error("Response content: " + response.text)

When the POST returns a response, `raise_for_status` either passes (success
logged) or raises `HTTPError`, which the handler catches; `response` is
bound, so both log lines run and the handler finishes.  When the POST itself
raises a transport `RequestException`, the handler runs with the local
variable `response` never assigned, so evaluating `response.text` raises
`UnboundLocalError` — which is not a `RequestException` and therefore
escapes `write_batch` unhandled. -/
def httpPhase (post : PostOutcome) : WriteOutcome :=
  match post with
  | Except.ok response =>
      if raise_for_status response then WriteOutcome.logged_error response.body
      else WriteOutcome.logged_success
  | Except.error _ => WriteOutcome.unhandled "UnboundLocalError"

/-- Embeds one `write_batch` call against a scripted endpoint: `script n` is
the outcome the endpoint would give to the n-th HTTP call of this batch.
The code performs a single `requests.post` (call number 0) with no retry
loop, so exactly one call is consumed.  Returns the observed outcome and
the number of HTTP calls made. -/
def write_batch_http (script : Nat → PostOutcome) : WriteOutcome × Nat :=
  (httpPhase (script 0), 1)

end AzureAISearch

namespace SimpleSink

/-- Embeds the body construction of the single-document variant's
`write_batch` (`src/bytewax/bytewax_azure_ai_search/__init__.py`): it takes
`batch[0]` only, performs no validation, and assigns every schema field via
`document.get(field_name, field_details.get("default", None))` — no
special case for `"vector"` in this variant. -/
def buildDocBody (schema : Schema) (document : Document) : Document :=
  schema.foldl
    (fun acc p => insertDict acc p.1 ((lookupKey document p.1).getD p.2.defaultValue))
    [("@search.action", Value.str "upload")]

/-- Embeds the response classification of this variant's `write_batch`: if
`response.status_code == 200` it returns a dict whose `"status"` entry is
`"success"`, otherwise a dict whose `"status"` entry is `response.text`.
This function is that `"status"` entry. -/
def write_batch_status (response : Response) : String :=
  if response.status = 200 then "success" else response.body

/-- Embeds one `write_batch` call of this variant against a scripted
endpoint: a single `requests.post` (call number 0), no retry, then the
status classification.  Returns the `"status"` value and the number of HTTP
calls made. -/
def write_batch_http (script : Nat → Response) : String × Nat :=
  (write_batch_status (script 0), 1)

end SimpleSink

namespace Operators

/-- Embeds the inner loop of `validate_and_prepare` in `operators.py` for
one document:

  for field_name, field_details in schema.items():
      if field_name not in document:
          document[field_name] = field_details.get("default")

Dict assignment on an absent key appends the entry, mutating the document
object in place. -/
def fillDefaults (schema : Schema) (document : Document) : Document :=
  schema.foldl
    (fun doc p =>
      match lookupKey doc p.1 with
      | some _ => doc
      | none => insertDict doc p.1 p.2.defaultValue)
    document

/-- Embeds `validate_and_prepare`'s effect on the caller's heap.  The
documents in the batch are Python objects owned by the caller; `store` is
the heap (one slot per document object) and `batch` the list of references
making up the batched value.  The loop mutates each referenced document in
place via `fillDefaults`; the function returns the same references, so the
caller observes the updated heap. -/
def validate_and_prepare (schema : Schema) (store : List Document) (batch : List Nat) :
    List Document :=
  batch.foldl (fun st ref => st.set ref (fillDefaults schema (st.getD ref []))) store

end Operators

/-! Helper lemmas about the Python-dict model. -/

theorem lookupKey_insertDict_self {α : Type} (d : Dict α) (k : String) (v : α) :
    lookupKey (insertDict d k v) k = some v := by
  induction d with
  | nil => simp [insertDict, lookupKey]
  | cons p rest ih =>
      obtain ⟨k', v'⟩ := p
      by_cases h : k' = k <;> simp [insertDict, lookupKey, h, ih]

theorem lookupKey_insertDict_ne {α : Type} (d : Dict α) (k k' : String) (v : α)
    (h : k ≠ k') : lookupKey (insertDict d k v) k' = lookupKey d k' := by
  induction d with
  | nil => simp [insertDict, lookupKey, h]
  | cons p rest ih =>
      obtain ⟨g, w⟩ := p
      by_cases hg : g = k
      · subst hg; simp [insertDict, lookupKey, h]
      · simp [insertDict, lookupKey, hg, ih]

theorem lookupKey_eq_none_iff {α : Type} (d : Dict α) (k : String) :
    lookupKey d k = none ↔ k ∉ List.map Prod.fst d := by
  induction d with
  | nil => simp [lookupKey]
  | cons p rest ih =>
      obtain ⟨g, w⟩ := p
      by_cases h : g = k
      · subst h; simp [lookupKey]
      · simp [lookupKey, h, ih, Ne.symm h]

theorem insertDict_of_lookupKey_none {α : Type} (d : Dict α) (k : String) (v : α)
    (h : lookupKey d k = none) : insertDict d k v = d ++ [(k, v)] := by
  induction d with
  | nil => rfl
  | cons p rest ih =>
      obtain ⟨g, w⟩ := p
      by_cases hg : g = k
      · simp [lookupKey, hg] at h
      · simp only [lookupKey, hg, if_false, ite_false] at h
        simp [insertDict, hg, ih h]

theorem lookupKey_append_left {α : Type} (d e : Dict α) (k : String) (v : α)
    (h : lookupKey d k = some v) : lookupKey (d ++ e) k = some v := by
  induction d with
  | nil => simp [lookupKey] at h
  | cons p rest ih =>
      obtain ⟨g, w⟩ := p
      by_cases hg : g = k
      · simp only [lookupKey, hg, if_pos rfl] at h ⊢
        simpa using h
      · simp only [lookupKey, hg, ite_false, if_false] at h ⊢
        simp [hg, ih h]

theorem lookupKey_append_right {α : Type} (d e : Dict α) (k : String)
    (h : lookupKey d k = none) : lookupKey (d ++ e) k = lookupKey e k := by
  induction d with
  | nil => rfl
  | cons p rest ih =>
      obtain ⟨g, w⟩ := p
      by_cases hg : g = k
      · simp [lookupKey, hg] at h
      · simp only [lookupKey, hg, ite_false, if_false] at h ⊢
        simp [hg, ih h]

namespace AzureAISearch

/-- Folding the `doc_body` assignments over schema fields none of which is
the looked-up key leaves that key's binding unchanged. -/
theorem foldBody_lookup_of_none (document : Document) (schema : Schema)
    (acc : Document) (fn : String) (h : lookupKey schema fn = none) :
    lookupKey
        (schema.foldl (fun acc p => insertDict acc p.1 (fieldEmission document p.1 p.2)) acc)
        fn
      = lookupKey acc fn := by
  induction schema generalizing acc with
  | nil => rfl
  | cons p rest ih =>
      obtain ⟨g, dtl⟩ := p
      by_cases hg : g = fn
      · simp [lookupKey, hg] at h
      · simp only [lookupKey, hg, ite_false, if_false] at h
        simpa [List.foldl_cons] using
          (ih (insertDict acc g (fieldEmission document g dtl)) h).trans
            (lookupKey_insertDict_ne acc g fn (fieldEmission document g dtl) hg)

/-- Folding the `doc_body` assignments over a duplicate-free schema binds a
declared field to exactly the value `fieldEmission` computes for it. -/
theorem foldBody_lookup_of_some (document : Document) (schema : Schema)
    (acc : Document) (fn : String) (details : FieldDetails)
    (hnd : keysNodup schema) (h : lookupKey schema fn = some details) :
    lookupKey
        (schema.foldl (fun acc p => insertDict acc p.1 (fieldEmission document p.1 p.2)) acc)
        fn
      = some (fieldEmission document fn details) := by
  induction schema generalizing acc with
  | nil => simp [lookupKey] at h
  | cons p rest ih =>
      obtain ⟨g, dtl⟩ := p
      rw [keysNodup, List.map_cons, List.nodup_cons] at hnd
      by_cases hg : g = fn
      · subst hg
        simp [lookupKey] at h
        subst h
        have hrest : lookupKey rest g = none :=
          (lookupKey_eq_none_iff rest g).mpr hnd.1
        simpa [List.foldl_cons] using
          (foldBody_lookup_of_none document rest
              (insertDict acc g (fieldEmission document g dtl)) g hrest).trans
            (lookupKey_insertDict_self acc g (fieldEmission document g dtl))
      · simp only [lookupKey, hg, ite_false, if_false] at h
        simpa [List.foldl_cons] using
          ih (insertDict acc g (fieldEmission document g dtl)) hnd.2 h

/-- Folding the `doc_body` assignments over a duplicate-free schema whose
keys are all absent from the accumulator appends the emitted fields in
schema declaration order. -/
theorem foldBody_append_of_disjoint (document : Document) (schema : Schema)
    (acc : Document) (hnd : keysNodup schema)
    (hdisj : ∀ k ∈ List.map Prod.fst schema, lookupKey acc k = none) :
    schema.foldl (fun acc p => insertDict acc p.1 (fieldEmission document p.1 p.2)) acc
      = acc ++ schema.map (fun p => (p.1, fieldEmission document p.1 p.2)) := by
  induction schema generalizing acc with
  | nil => simp
  | cons p rest ih =>
      obtain ⟨g, dtl⟩ := p
      rw [keysNodup, List.map_cons, List.nodup_cons] at hnd
      have hg : lookupKey acc g = none := hdisj g (by simp)
      have hstep : insertDict acc g (fieldEmission document g dtl)
          = acc ++ [(g, fieldEmission document g dtl)] :=
        insertDict_of_lookupKey_none acc g _ hg
      have hdisj' : ∀ k ∈ List.map Prod.fst rest,
          lookupKey (acc ++ [(g, fieldEmission document g dtl)]) k = none := by
        intro k hk
        have hkg : g ≠ k := fun hgk => hnd.1 (hgk ▸ hk)
        rw [lookupKey_append_right acc _ k (hdisj k (by simp [hk]))]
        simp [lookupKey, hkg]
      calc
        (rest.foldl (fun acc p => insertDict acc p.1 (fieldEmission document p.1 p.2))
            (insertDict acc g (fieldEmission document g dtl)))
            = (acc ++ [(g, fieldEmission document g dtl)]) ++
                rest.map (fun p => (p.1, fieldEmission document p.1 p.2)) := by
              rw [hstep]; exact ih _ hnd.2 hdisj'
        _ = acc ++ ((g, fieldEmission document g dtl) ::
                rest.map (fun p => (p.1, fieldEmission document p.1 p.2))) := by
              simp

/-- The batch loop appends encoded bodies of valid documents in order: it
equals filtering the batch by `validate_document` and encoding each survivor. -/
theorem write_batch_value_foldl (schema : Schema) (batch : List Document)
    (acc : List Document) :
    batch.foldl
        (fun acc document =>
          if validate_document document schema then acc ++ [buildDocBody schema document]
          else acc)
        acc
      = acc ++ (batch.filter (fun d => validate_document d schema)).map
          (buildDocBody schema) := by
  induction batch generalizing acc with
  | nil => simp
  | cons d rest ih =>
      by_cases hd : validate_document d schema <;>
        simp [List.foldl_cons, List.filter_cons, hd, ih]

end AzureAISearch

namespace Operators

/-- Filling defaults only ever appends entries to the mutated document: the
original entries stay in place, in order, with their original values. -/
theorem fillDefaults_append (schema : Schema) (document : Document) :
    ∃ added, fillDefaults schema document = document ++ added := by
  induction schema generalizing document with
  | nil => exact ⟨[], by simp [fillDefaults]⟩
  | cons p rest ih =>
      cases hl : lookupKey document p.1 with
      | some v =>
          obtain ⟨r2, h2⟩ := ih document
          exact ⟨r2, by simpa [fillDefaults, List.foldl_cons, hl] using h2⟩
      | none =>
          obtain ⟨r2, h2⟩ := ih (insertDict document p.1 p.2.defaultValue)
          rw [insertDict_of_lookupKey_none document p.1 p.2.defaultValue hl] at h2
          refine ⟨(p.1, p.2.defaultValue) :: r2, ?_⟩
          have : fillDefaults (p :: rest) document
              = fillDefaults rest (insertDict document p.1 p.2.defaultValue) := by
            simp [fillDefaults, List.foldl_cons, hl]
          rw [this, insertDict_of_lookupKey_none document p.1 p.2.defaultValue hl, h2,
            List.append_assoc]
          rfl

/-- One pass of the batch loop changes one heap slot, and only by appending
the missing defaults to the document stored there. -/
theorem set_fillDefaults_getD (schema : Schema) (store : List Document) (r i : Nat) :
    ∃ added,
      (store.set r (fillDefaults schema (store.getD r []))).getD i []
        = store.getD i [] ++ added := by
  by_cases hri : r = i
  · subst hri
    by_cases hr : r < store.length
    · obtain ⟨added, ha⟩ := fillDefaults_append schema (store.getD r [])
      refine ⟨added, ?_⟩
      rw [List.getD_eq_getElem?_getD, List.getElem?_set, if_pos rfl, if_pos hr]
      simpa using ha
    · refine ⟨[], ?_⟩
      rw [List.getD_eq_getElem?_getD, List.getElem?_set, if_pos rfl, if_neg hr]
      have : store[r]? = none := by
        rw [List.getElem?_eq_none_iff]
        omega
      rw [List.getD_eq_getElem?_getD, this]
      simp
  · exact ⟨[], by rw [List.getD_eq_getElem?_getD, List.getElem?_set, if_neg hri,
      ← List.getD_eq_getElem?_getD, List.append_nil]⟩

end Operators

/-! Claim theorems. -/

open AzureAISearch

/-- C1, counterexample: a schema declaring field `"vector"` of kind
collection with declared default `[]`, and a document (the empty document)
that passes validation and is missing that field, yields an encoded entry
carrying the hard-coded `""` rather than the declared default `[]`. -/
theorem C1_counterexample :
    validate_document [] ([("vector", ⟨"collection", some (Value.list [])⟩)] : Schema)
        = true ∧
    lookupKey
        (buildDocBody ([("vector", ⟨"collection", some (Value.list [])⟩)] : Schema) [])
        "vector"
      = some (Value.str "") ∧
    Value.str "" ≠ Value.list [] :=
  ⟨rfl, rfl, fun h => Value.noConfusion h⟩

/-- C1, amended: for every batch and duplicate-free schema, when a document
is missing a schema-declared field, the encoded entry for that field carries
the schema's declared default — except for a field named `"vector"`, whose
encoded entry carries the empty string `""` regardless of its declared
default. -/
theorem C1_missing_field_default (schema : Schema) (document : Document)
    (fn : String) (details : FieldDetails) (hnd : keysNodup schema)
    (hs : lookupKey schema fn = some details) (hd : lookupKey document fn = none) :
    lookupKey (buildDocBody schema document) fn
      = some (if fn = "vector" then Value.str "" else details.defaultValue) := by
  have h := foldBody_lookup_of_some document schema
      [("@search.action", Value.str "upload")] fn details hnd hs
  refine h.trans ?_
  simp [fieldEmission, hd]

/-- C1, witness: a concrete schema and the empty document, where the
`"id"` field's declared default `"d"` is emitted. -/
theorem C1_missing_field_default_witness :
    lookupKey
        (buildDocBody
          ([("id", ⟨"string", some (Value.str "d")⟩),
            ("vector", ⟨"collection", some (Value.list [])⟩)] : Schema)
          [])
        "id"
      = some (Value.str "d") :=
  C1_missing_field_default _ [] "id" ⟨"string", some (Value.str "d")⟩
    (by decide) rfl rfl

/-- C2: each document failing validation is dropped individually and the
remaining documents are encoded in their original order (the batch loop
equals filter-then-encode); in particular a 3-record batch whose middle
record is invalid delivers exactly the encodings of records 1 and 3. -/
theorem C2_per_document_drop :
    (∀ (schema : Schema) (batch : List Document),
        write_batch_value schema batch
          = (batch.filter (fun d => validate_document d schema)).map
              (buildDocBody schema)) ∧
    (∀ (schema : Schema) (d1 d2 d3 : Document),
        validate_document d1 schema = true →
        validate_document d2 schema = false →
        validate_document d3 schema = true →
        write_batch_value schema [d1, d2, d3]
          = [buildDocBody schema d1, buildDocBody schema d3]) := by
  have h1 : ∀ (schema : Schema) (batch : List Document),
      write_batch_value schema batch
        = (batch.filter (fun d => validate_document d schema)).map
            (buildDocBody schema) := by
    intro schema batch
    simpa using write_batch_value_foldl schema batch []
  refine ⟨h1, ?_⟩
  intro schema d1 d2 d3 v1 v2 v3
  rw [h1]
  simp [List.filter_cons, v1, v2, v3]

/-- C2, witness: a collection-typed schema with a middle record holding a
string where a list is required; the envelope keeps records 1 and 3. -/
theorem C2_per_document_drop_witness :
    write_batch_value ([("v", ⟨"collection", none⟩)] : Schema)
        [[("v", Value.list [])], [("v", Value.str "x")], []]
      = [buildDocBody ([("v", ⟨"collection", none⟩)] : Schema) [("v", Value.list [])],
         buildDocBody ([("v", ⟨"collection", none⟩)] : Schema) []] :=
  C2_per_document_drop.2 _ _ _ _ rfl rfl rfl

/-- C3, counterexample: against an endpoint scripted to answer 503, 503,
503, 200, `write_batch` makes exactly one HTTP call (not 4) and the outcome
is not a success. -/
theorem C3_counterexample :
    (write_batch_http (fun n =>
        if n < 3 then Except.ok (Response.mk 503 "Service Unavailable")
        else Except.ok (Response.mk 200 "OK"))).2 = 1 ∧
    (write_batch_http (fun n =>
        if n < 3 then Except.ok (Response.mk 503 "Service Unavailable")
        else Except.ok (Response.mk 200 "OK"))).1 ≠ WriteOutcome.logged_success := by
  decide

/-- C3, amended: every `write_batch` performs exactly one HTTP call with no
retry; a 5xx response raises `HTTPError`, which is caught and logged (with
the response body) as the final outcome of that single call. -/
theorem C3_single_call_no_retry (script : Nat → PostOutcome) :
    (write_batch_http script).2 = 1 ∧
    (∀ r : Response, script 0 = Except.ok r → 500 ≤ r.status → r.status < 600 →
        (write_batch_http script).1 = WriteOutcome.logged_error r.body) := by
  refine ⟨rfl, ?_⟩
  intro r hr h5 h6
  have hraise : raise_for_status r = true := by
    simp only [raise_for_status, Bool.and_eq_true, decide_eq_true_eq]
    omega
  simp [write_batch_http, httpPhase, hr, hraise]

/-- C3, witness: a single 503 answer is consumed in one call and logged. -/
theorem C3_single_call_no_retry_witness :
    (write_batch_http (fun _ => Except.ok (Response.mk 503 "boom"))).2 = 1 ∧
    (write_batch_http (fun _ => Except.ok (Response.mk 503 "boom"))).1
      = WriteOutcome.logged_error "boom" :=
  ⟨(C3_single_call_no_retry _).1,
   (C3_single_call_no_retry _).2 (Response.mk 503 "boom") rfl (by decide) (by decide)⟩

/-- C4: when `requests.post` itself fails with a transport error before any
response exists, the `except` handler's access to the unbound `response`
variable raises `UnboundLocalError`, which escapes `write_batch` unhandled —
contradicting the claim that no unhandled fault leaves this boundary. -/
theorem C4_transport_error_unhandled :
    write_batch_http (fun _ => Except.error "ConnectionError")
      = (WriteOutcome.unhandled "UnboundLocalError", 1) := rfl

/-- C5, counterexample: the single-document variant classifies HTTP 201
(a 2xx status) as a failure whose reported status is the response body, not
as success. -/
theorem C5_counterexample :
    SimpleSink.write_batch_http (fun _ => Response.mk 201 "Created")
      = ("Created", 1) ∧ ("Created" : String) ≠ "success" :=
  ⟨rfl, by decide⟩

/-- C5, amended: exactly one HTTP call is made with no retry; a response
with status exactly 200 yields `"success"`, and any other status — 4xx, but
also non-200 2xx — yields the response body verbatim. -/
theorem C5_only_200_success (script : Nat → Response) :
    (SimpleSink.write_batch_http script).2 = 1 ∧
    ((script 0).status = 200 → (SimpleSink.write_batch_http script).1 = "success") ∧
    ((script 0).status ≠ 200 → (SimpleSink.write_batch_http script).1 = (script 0).body) := by
  refine ⟨rfl, ?_, ?_⟩ <;> intro h <;>
    simp [SimpleSink.write_batch_http, SimpleSink.write_batch_status, h]

/-- C5, witness: an HTTP 400 answer is consumed in one call and its body is
reported verbatim. -/
theorem C5_only_200_success_witness :
    (SimpleSink.write_batch_http (fun _ => Response.mk 400 "Bad Request")).2 = 1 ∧
    (SimpleSink.write_batch_http (fun _ => Response.mk 400 "Bad Request")).1
      = "Bad Request" :=
  ⟨(C5_only_200_success _).1, (C5_only_200_success _).2.2 (by decide)⟩

/-- C6, counterexample: a valid document carrying the undeclared field
`"extra"` is encoded without it — undeclared fields do not pass through. -/
theorem C6_counterexample :
    validate_document [("id", Value.str "a"), ("extra", Value.num 5)]
        ([("id", ⟨"string", none⟩)] : Schema) = true ∧
    lookupKey
        (buildDocBody ([("id", ⟨"string", none⟩)] : Schema)
          [("id", Value.str "a"), ("extra", Value.num 5)])
        "extra"
      = none :=
  ⟨rfl, rfl⟩

/-- C6, amended: the encoded document is built from the schema's fields
only; any record field not declared in the schema is dropped from the
encoded document. -/
theorem C6_undeclared_fields_dropped (schema : Schema) (document : Document)
    (fn : String) (hact : fn ≠ "@search.action") (hs : lookupKey schema fn = none) :
    lookupKey (buildDocBody schema document) fn = none := by
  have h := foldBody_lookup_of_none document schema
      [("@search.action", Value.str "upload")] fn hs
  refine h.trans ?_
  simp [lookupKey, Ne.symm hact]

/-- C6, witness: the undeclared field `"meta"` is absent from the encoded
document. -/
theorem C6_undeclared_fields_dropped_witness :
    lookupKey
        (buildDocBody ([("id", ⟨"string", none⟩)] : Schema)
          [("id", Value.str "a"), ("meta", Value.num 5)])
        "meta"
      = none :=
  C6_undeclared_fields_dropped _ _ "meta" (by decide) rfl

/-- C7, counterexample: `validate_and_prepare` run on a heap holding the
empty document mutates that document in place: afterwards the caller's
record is `[("id", "d")]`, no longer equal to its value `[]` before
processing. -/
theorem C7_counterexample :
    (Operators.validate_and_prepare
          ([("id", ⟨"string", some (Value.str "d")⟩)] : Schema)
          [([] : Document)] [0]).getD 0 []
        = [("id", Value.str "d")] ∧
    ([("id", Value.str "d")] : Document) ≠ ([] : Document) :=
  ⟨rfl, by simp⟩

/-- C7, amended: `validate_and_prepare` fills schema defaults by mutating
the caller's records in place, and only by appending the missing declared
defaults: after processing, each heap slot equals its old value followed by
the appended entries, so every field present before keeps its value. -/
theorem C7_normalize_appends_in_place (schema : Schema) (store : List Document)
    (batch : List Nat) (i : Nat) :
    ∃ added,
      (Operators.validate_and_prepare schema store batch).getD i []
          = store.getD i [] ++ added ∧
      ∀ (fn : String) (v : Value), lookupKey (store.getD i []) fn = some v →
        lookupKey ((Operators.validate_and_prepare schema store batch).getD i []) fn
          = some v := by
  have main : ∀ (batch : List Nat) (store : List Document),
      ∃ added,
        (Operators.validate_and_prepare schema store batch).getD i []
          = store.getD i [] ++ added := by
    intro batch
    induction batch with
    | nil =>
        intro store
        exact ⟨[], by simp [Operators.validate_and_prepare]⟩
    | cons r rs ih =>
        intro store
        obtain ⟨a1, h1⟩ := Operators.set_fillDefaults_getD schema store r i
        obtain ⟨a2, h2⟩ :=
          ih (store.set r (Operators.fillDefaults schema (store.getD r [])))
        refine ⟨a1 ++ a2, ?_⟩
        have hstep : Operators.validate_and_prepare schema store (r :: rs)
            = Operators.validate_and_prepare schema
                (store.set r (Operators.fillDefaults schema (store.getD r []))) rs := rfl
        rw [hstep, h2, h1, List.append_assoc]
  obtain ⟨added, ha⟩ := main batch store
  refine ⟨added, ha, ?_⟩
  intro fn v hv
  rw [ha]
  exact lookupKey_append_left _ _ fn v hv

/-- C7, witness: a concrete heap slot keeps its existing entry as a prefix
after normalization. -/
theorem C7_normalize_appends_in_place_witness :
    ∃ added,
      (Operators.validate_and_prepare
            ([("id", ⟨"string", some (Value.str "d")⟩)] : Schema)
            [[("k", Value.num 1)]] [0]).getD 0 []
          = [("k", Value.num 1)] ++ added ∧
      ∀ (fn : String) (v : Value), lookupKey [("k", Value.num 1)] fn = some v →
        lookupKey ((Operators.validate_and_prepare
            ([("id", ⟨"string", some (Value.str "d")⟩)] : Schema)
            [[("k", Value.num 1)]] [0]).getD 0 []) fn = some v :=
  C7_normalize_appends_in_place _ _ _ 0

/-- C8, counterexample: the `"@search.action"` tag is configurable after
all — a schema declaring a field of that name overwrites the `"upload"`
literal in the encoded entry (here with `"merge"`). -/
theorem C8_counterexample :
    write_batch_value
        ([("@search.action", ⟨"string", some (Value.str "merge")⟩)] : Schema)
        [([] : Document)]
      = [[("@search.action", Value.str "merge")]] ∧
    Value.str "merge" ≠ Value.str "upload" :=
  ⟨rfl, by simp⟩

/-- C8, amended: the request body is an envelope with the single key
`"value"` holding the ordered entry list, and — provided the schema does
not itself declare a field named `"@search.action"` — each entry is the
`("@search.action", "upload")` tag followed by the schema-declared fields
in schema declaration order. -/
theorem C8_envelope_shape (schema : Schema) (batch : List Document)
    (document : Document) (hnd : keysNodup schema)
    (hact : lookupKey schema "@search.action" = none) :
    write_batch_body schema batch = [("value", write_batch_value schema batch)] ∧
    buildDocBody schema document
      = ("@search.action", Value.str "upload")
          :: schema.map (fun p => (p.1, fieldEmission document p.1 p.2)) := by
  refine ⟨rfl, ?_⟩
  have hmem : "@search.action" ∉ List.map Prod.fst schema :=
    (lookupKey_eq_none_iff schema "@search.action").mp hact
  have hdisj : ∀ k ∈ List.map Prod.fst schema,
      lookupKey [("@search.action", Value.str "upload")] k = none := by
    intro k hk
    have hne : "@search.action" ≠ k := fun he => hmem (he ▸ hk)
    simp [lookupKey, hne]
  have h := foldBody_append_of_disjoint document schema
      [("@search.action", Value.str "upload")] hnd hdisj
  rw [List.singleton_append] at h
  exact h

/-- C8, witness: a concrete two-field schema produces the action tag
followed by the fields in declaration order. -/
theorem C8_envelope_shape_witness :
    buildDocBody
        ([("id", ⟨"string", some (Value.str "d")⟩),
          ("vector", ⟨"collection", some (Value.list [])⟩)] : Schema)
        [("id", Value.str "x")]
      = [("@search.action", Value.str "upload"), ("id", Value.str "x"),
         ("vector", Value.str "")] :=
  (C8_envelope_shape
      ([("id", ⟨"string", some (Value.str "d")⟩),
        ("vector", ⟨"collection", some (Value.list [])⟩)] : Schema)
      [] [("id", Value.str "x")] (by decide) rfl).2

/-- C9: a declared type that is neither `"string"` nor `"collection"` is
opaque — no value can fail its per-field check, and a schema made only of
such fields validates every document. -/
theorem C9_unknown_types_unchecked :
    (∀ (details : FieldDetails) (value : Value),
        details.type ≠ "string" → details.type ≠ "collection" →
        checkField details value = true) ∧
    (∀ (schema : Schema) (document : Document),
        (∀ p ∈ schema, p.2.type ≠ "string" ∧ p.2.type ≠ "collection") →
        validate_document document schema = true) := by
  have hcf : ∀ (details : FieldDetails) (value : Value),
      details.type ≠ "string" → details.type ≠ "collection" →
      checkField details value = true := by
    intro details value h1 h2
    simp [checkField, h1, h2]
  refine ⟨hcf, ?_⟩
  intro schema document h
  rw [validate_document, List.all_eq_true]
  intro p hp
  cases hl : lookupKey document p.1 with
  | none => simp [hl]
  | some v => simpa [hl] using hcf p.2 v (h p hp).1 (h p hp).2

/-- C9, witness: an `"opaque"`-typed field holding a number passes both the
field check and whole-document validation. -/
theorem C9_unknown_types_unchecked_witness :
    checkField ⟨"opaque", none⟩ (Value.num 7) = true ∧
    validate_document [("meta", Value.num 7)]
        ([("meta", ⟨"opaque", none⟩)] : Schema) = true :=
  ⟨C9_unknown_types_unchecked.1 ⟨"opaque", none⟩ (Value.num 7) (by decide) (by decide),
   C9_unknown_types_unchecked.2 _ _ (by
      intro p hp
      rw [List.mem_singleton] at hp
      subst hp
      exact ⟨by decide, by decide⟩)⟩

/-- C10: validation only inspects declared fields present in the document;
a document containing none of the schema's fields — in particular the empty
document — always validates, even when declared fields have no default. -/
theorem C10_absence_never_fails :
    (∀ (schema : Schema) (document : Document),
        (∀ p ∈ schema, lookupKey document p.1 = none) →
        validate_document document schema = true) ∧
    (∀ schema : Schema, validate_document [] schema = true) := by
  have h1 : ∀ (schema : Schema) (document : Document),
      (∀ p ∈ schema, lookupKey document p.1 = none) →
      validate_document document schema = true := by
    intro schema document h
    rw [validate_document, List.all_eq_true]
    intro p hp
    simp [h p hp]
  exact ⟨h1, fun schema => h1 schema [] (fun p _ => rfl)⟩

/-- C10, witness: a document disjoint from a schema whose only declared
field has no default still validates. -/
theorem C10_absence_never_fails_witness :
    validate_document [("other", Value.num 1)]
        ([("id", ⟨"string", none⟩)] : Schema) = true :=
  C10_absence_never_fails.1 _ _ (by
    intro p hp
    rw [List.mem_singleton] at hp
    subst hp
    rfl)

end AzureSink
